import Mathlib

/-!
Shallow embedding of the order-fulfillment core of the E_commerce backend
(services/inventory_services.py, services/order_services.py,
services/payment_services.py, controllers/inventory_controller.py) and
proofs of the specification claims about it.

Python `Decimal` values are modelled as exact rationals (`Rat`); Python
integers as `Int`.  A SQLAlchemy session is modelled as a pair of database
snapshots: `committed` (what the store holds) and `working` (the session's
in-flight view); `commit` publishes `working`, an exception that escapes the
endpoint leaves `committed` as the persisted state (the session is closed
without commit, discarding `working`).
-/

/-- `Decimal.quantize(Decimal("0.01"), rounding=ROUND_HALF_UP)`:
round to 2 decimal places, ties away from zero. -/
def quantizeMoney (x : Rat) : Rat :=
  if 0 ≤ x then ((Int.floor (x * 100 + 1/2) : Int) : Rat) / 100
  else -(((Int.floor ((-x) * 100 + 1/2) : Int) : Rat) / 100)

/-- A rational is an exact number of cents. -/
def Cents (x : Rat) : Prop := ∃ k : Int, x = (k : Rat) / 100

theorem cents_add {a b : Rat} (ha : Cents a) (hb : Cents b) : Cents (a + b) := by
  obtain ⟨k, rfl⟩ := ha
  obtain ⟨m, rfl⟩ := hb
  exact ⟨k + m, by push_cast; ring⟩

theorem cents_zero : Cents 0 := ⟨0, by norm_num⟩

theorem cents_neg {a : Rat} (ha : Cents a) : Cents (-a) := by
  obtain ⟨k, rfl⟩ := ha
  exact ⟨-k, by push_cast; ring⟩

theorem quantizeMoney_cents (x : Rat) : Cents (quantizeMoney x) := by
  unfold quantizeMoney
  split
  · exact ⟨Int.floor (x * 100 + 1/2), rfl⟩
  · exact ⟨-(Int.floor ((-x) * 100 + 1/2)), by push_cast; ring⟩

theorem floor_int_add_half (k : Int) : Int.floor ((k : Rat) + 1/2) = k := by
  rw [Int.floor_eq_iff]
  constructor
  · norm_num
  · norm_num

/-- `quantizeMoney` is the identity on exact cent amounts. -/
theorem quantizeMoney_cents_id {x : Rat} (hx : Cents x) : quantizeMoney x = x := by
  obtain ⟨k, rfl⟩ := hx
  unfold quantizeMoney
  have h100 : ((k : Rat) / 100) * 100 = (k : Rat) := by
    field_simp
  split
  · rw [h100, floor_int_add_half]
  · have h2 : -((k : Rat) / 100) = ((-k : Int) : Rat) / 100 := by push_cast; ring
    rw [h2]
    have h3 : (((-k : Int) : Rat) / 100) * 100 = ((-k : Int) : Rat) := by field_simp
    rw [h3, floor_int_add_half]
    push_cast; ring

/-- Update the first element of a list satisfying `p` by `f`
(mirrors mutating the single row returned by `query(...).first()`). -/
def updateFirst {α : Type} (l : List α) (p : α → Bool) (f : α → α) : List α :=
  match l with
  | [] => []
  | a :: rest => if p a then f a :: rest else a :: updateFirst rest p f

theorem updateFirst_of_find?_none {α : Type} (l : List α) (p : α → Bool) (f : α → α)
    (h : l.find? p = none) : updateFirst l p f = l := by
  induction l with
  | nil => rfl
  | cons a rest ih =>
    by_cases hpa : p a
    · simp [List.find?_cons, hpa] at h
    · have h2 : rest.find? p = none := by simpa [List.find?_cons, hpa] using h
      simp [updateFirst, hpa, ih h2]

/-- Decomposition of `updateFirst` at the row located by `find?`. -/
theorem updateFirst_split {α : Type} (l : List α) (p : α → Bool) (f : α → α) (a : α)
    (h : l.find? p = some a) :
    ∃ l₁ l₂, l = l₁ ++ a :: l₂ ∧ updateFirst l p f = l₁ ++ f a :: l₂ ∧
      ∀ x ∈ l₁, p x = false := by
  induction l with
  | nil => simp [List.find?] at h
  | cons b rest ih =>
    rw [List.find?_cons] at h
    by_cases hpb : p b
    · simp only [hpb, if_pos] at h
      refine ⟨[], rest, ?_, ?_, ?_⟩
      · simp_all
      · simp_all [updateFirst]
      · intro x hx; simp at hx
    · simp only [hpb] at h
      obtain ⟨l₁, l₂, he, hu, hl₁⟩ := ih (by simpa [hpb] using h)
      refine ⟨b :: l₁, l₂, by simp [he], ?_, ?_⟩
      · simp [updateFirst, hpb, hu]
      · intro x hx
        rcases List.mem_cons.mp hx with rfl | hx
        · simpa using hpb
        · exact hl₁ x hx

theorem updateFirst_preserves {α : Type} {P : α → Prop} (l : List α) (p : α → Bool)
    (f : α → α) (hl : ∀ x ∈ l, P x)
    (hf : ∀ x ∈ l, p x = true → P (f x)) :
    ∀ x ∈ updateFirst l p f, P x := by
  induction l with
  | nil => intro x hx; simp [updateFirst] at hx
  | cons a rest ih =>
    intro x hx
    simp only [updateFirst] at hx
    by_cases hpa : p a
    · simp only [hpa, if_pos, ite_true] at hx
      rcases List.mem_cons.mp hx with rfl | hx
      · exact hf a (List.mem_cons_self a rest) hpa
      · exact hl x (List.mem_cons_of_mem a hx)
    · simp only [hpa, ite_false] at hx
      rcases List.mem_cons.mp hx with rfl | hx
      · exact hl x (List.mem_cons_self x rest)
      · exact ih (fun y hy => hl y (List.mem_cons_of_mem a hy))
          (fun y hy hpy => hf y (List.mem_cons_of_mem a hy) hpy) x hx

theorem find?_append_left_none {α : Type} (l₁ l₂ : List α) (p : α → Bool)
    (h : ∀ x ∈ l₁, p x = false) : (l₁ ++ l₂).find? p = l₂.find? p := by
  induction l₁ with
  | nil => rfl
  | cons b l₁ ih =>
    have hb : p b = false := h b (List.mem_cons_self b l₁)
    simp only [List.cons_append, List.find?_cons, hb]
    exact ih (fun x hx => h x (List.mem_cons_of_mem b hx))

/-- `find?` after `updateFirst` with the same predicate returns the updated
row, provided the update keeps the predicate true. -/
theorem find?_updateFirst {α : Type} (l : List α) (p : α → Bool) (f : α → α) (a : α)
    (h : l.find? p = some a) (hf : p (f a) = true) :
    (updateFirst l p f).find? p = some (f a) := by
  obtain ⟨l₁, l₂, he, hu, hl₁⟩ := updateFirst_split l p f a h
  rw [hu, find?_append_left_none l₁ (f a :: l₂) p hl₁]
  simp [List.find?_cons, hf]

/-! ## Data model (models/*.py) -/

/-- models/product_model.py: Product (fields used by the core). -/
structure Product where
  id : Int
  name : String
  price : Rat
  status : String
deriving Repr, DecidableEq

/-- models/inventory_model.py: Inventory (product_id is unique). -/
structure Inventory where
  product_id : Int
  total_stock : Int
  available_stock : Int
  reserved_stock : Int
deriving Repr, DecidableEq

/-- Modelled from the spec: models/cart_model.py is not under src (only its
users are); per §3 a CartItem carries product_id and quantity (the fields the
order materializer reads). -/
structure CartItem where
  product_id : Int
  quantity : Int
deriving Repr, DecidableEq

/-- Modelled from the spec: models/cart_model.py is not under src; per §3 a
Cart is keyed 1:1 by user_id and holds a list of items. -/
structure Cart where
  user_id : Int
  items : List CartItem
deriving Repr, DecidableEq

/-- models/order_model.py: Order (fields used by the core). -/
structure Order where
  id : Int
  user_id : Int
  total_items : Int
  subtotal : Rat
  tax : Rat
  discount : Rat
  grand_total : Rat
  status : String
  shipping_address : Option String
  payment_method : Option String
deriving Repr, DecidableEq

/-- models/order_model.py: OrderItem. -/
structure OrderItem where
  order_id : Int
  product_id : Int
  product_name : String
  unit_price : Rat
  quantity : Int
  total_price : Rat
deriving Repr, DecidableEq

/-- models/payment_model.py: Payment.  razorpay_payment_id and
razorpay_signature are declared nullable=False (payment_model.py:24-26) and
the schema is created from the models (Base.metadata.create_all, main.py);
they are nevertheless Option String here because the service constructs
Payment objects without them (Python-side None) — committing such an insert
violates NOT NULL and raises IntegrityError, which the embedding enforces at
the insert commit (paymentInsertViolatesNotNull).  (order_id,
razorpay_payment_id) is unique (uq_order_payment_idempotent). -/
structure Payment where
  id : Int
  order_id : Int
  user_id : Int
  razorpay_order_id : String
  razorpay_payment_id : Option String
  razorpay_signature : Option String
  amount : Rat
  currency : String
  status : String
deriving Repr, DecidableEq

/-- The relational store.  Row order in each list is insertion (primary key)
order, matching what unordered SQLAlchemy queries return; next_order_id and
next_payment_id model the primary-key generators. -/
structure DB where
  products : List Product
  inventories : List Inventory
  carts : List Cart
  orders : List Order
  order_items : List OrderItem
  payments : List Payment
  next_order_id : Int
  next_payment_id : Int
deriving Repr, DecidableEq

/-- Modelled from the spec: database.py (SessionLocal / get_db) is not under
src.  Per §5 a unit of work is all-or-nothing: `committed` is the persisted
store, `working` the session's in-flight view; commit publishes working;
an exception that escapes the endpoint closes the session without commit, so
`committed` is what survives. -/
structure SessionState where
  committed : DB
  working : DB
deriving Repr, DecidableEq

/-- Errors escaping a service call: fastapi.HTTPException(status_code, detail),
an uncaught sqlalchemy IntegrityError, or a Python AttributeError from
dereferencing None. -/
inductive PyErr where
  | http (code : Int) (detail : String)
  | integrityErr
  | attrErrorNone
deriving Repr, DecidableEq

/-! ## Inventory services (services/inventory_services.py,
controllers/inventory_controller.py) -/

/-- repositories/inventory_repository.py: get_by_product_id. -/
def get_by_product_id (db : DB) (product_id : Int) : Option Inventory :=
  db.inventories.find? (fun i => i.product_id == product_id)

/-- services/inventory_services.py: create_inventory_for_product.  The source
has no duplicate check; the unique constraint on product_id makes the commit
raise IntegrityError when a row for this product already exists. -/
def create_inventory_for_product (s : SessionState) (product_id stock : Int) :
    SessionState × Except PyErr Inventory :=
  let inventory : Inventory :=
    { product_id := product_id, total_stock := stock,
      available_stock := stock, reserved_stock := 0 }
  if s.working.inventories.any (fun i => i.product_id == product_id) then
    (s, .error .integrityErr)
  else
    let w := { s.working with inventories := s.working.inventories ++ [inventory] }
    ({ committed := w, working := w }, .ok inventory)

/-- The in-place row mutation done by reserve_stock. -/
def reserveUpd (quantity : Int) (i : Inventory) : Inventory :=
  { i with available_stock := i.available_stock - quantity,
           reserved_stock := i.reserved_stock + quantity }

/-- services/inventory_services.py: reserve_stock. -/
def reserve_stock (s : SessionState) (product_id quantity : Int) :
    SessionState × Except PyErr Inventory :=
  match get_by_product_id s.working product_id with
  | none => (s, .error (.http 400 "Insufficient stock"))
  | some inventory =>
    if inventory.available_stock < quantity then
      (s, .error (.http 400 "Insufficient stock"))
    else
      let w := { s.working with
        inventories := updateFirst s.working.inventories
          (fun i => i.product_id == product_id) (reserveUpd quantity) }
      ({ committed := w, working := w }, .ok (reserveUpd quantity inventory))

/-- Loop body shared by finalize_stock: per item, fetch the inventory row
(None dereference raises AttributeError) and mutate it. -/
def finalize_loop (invs : List Inventory) :
    List OrderItem → Except PyErr (List Inventory)
  | [] => .ok invs
  | item :: rest =>
    match invs.find? (fun i => i.product_id == item.product_id) with
    | none => .error .attrErrorNone
    | some _ =>
      finalize_loop
        (updateFirst invs (fun i => i.product_id == item.product_id)
          (fun i => { i with reserved_stock := i.reserved_stock - item.quantity,
                             total_stock := i.total_stock - item.quantity }))
        rest

/-- services/inventory_services.py: finalize_stock (order level). -/
def finalize_stock (s : SessionState) (order_id : Int) :
    SessionState × Except PyErr Unit :=
  let items := s.working.order_items.filter (fun it => it.order_id == order_id)
  match finalize_loop s.working.inventories items with
  | .error e => (s, .error e)
  | .ok invs =>
    let w := { s.working with inventories := invs }
    ({ committed := w, working := w }, .ok ())

/-- Loop body of rollback_stock. -/
def rollback_loop (invs : List Inventory) :
    List OrderItem → Except PyErr (List Inventory)
  | [] => .ok invs
  | item :: rest =>
    match invs.find? (fun i => i.product_id == item.product_id) with
    | none => .error .attrErrorNone
    | some _ =>
      rollback_loop
        (updateFirst invs (fun i => i.product_id == item.product_id)
          (fun i => { i with reserved_stock := i.reserved_stock - item.quantity,
                             available_stock := i.available_stock + item.quantity }))
        rest

/-- services/inventory_services.py: rollback_stock (order level).  An empty
item set returns early without committing. -/
def rollback_stock (s : SessionState) (order_id : Int) :
    SessionState × Except PyErr Unit :=
  let items := s.working.order_items.filter (fun it => it.order_id == order_id)
  if items.isEmpty then (s, .ok ())
  else
    match rollback_loop s.working.inventories items with
    | .error e => (s, .error e)
    | .ok invs =>
      let w := { s.working with inventories := invs }
      ({ committed := w, working := w }, .ok ())

/-- The row mutation done by the admin update_inventory endpoint. -/
def adminUpd (total_stock : Int) (i : Inventory) : Inventory :=
  { i with total_stock := total_stock,
           available_stock := i.available_stock + (total_stock - i.total_stock) }

/-- controllers/inventory_controller.py: update_inventory (admin). -/
def update_inventory (s : SessionState) (product_id total_stock : Int) :
    SessionState × Except PyErr Inventory :=
  match get_by_product_id s.working product_id with
  | none => (s, .error (.http 404 "Inventory not found"))
  | some inventory =>
    let w := { s.working with
      inventories := updateFirst s.working.inventories
        (fun i => i.product_id == product_id) (adminUpd total_stock) }
    ({ committed := w, working := w }, .ok (adminUpd total_stock inventory))

/-! ## Order service (services/order_services.py) -/

def ALLOWED_STATUSES : List String :=
  ["PENDING", "CONFIRMED", "PAID", "SHIPPED", "DELIVERED", "CANCELLED"]

/-- services/order_services.py: _quantize_money. -/
def _quantize_money (value : Rat) : Rat := quantizeMoney value

/-- Accumulator threaded through the checkout loop: the session's working
view, the running subtotal and item count, and the sequence of inventory rows
locked so far (one entry per with_for_update query, in execution order). -/
structure CheckoutAcc where
  working : DB
  subtotal : Rat
  total_items : Int
  locks : List Int
deriving Repr, DecidableEq

/-- One iteration of the checkout loop over a cart item: product lookup,
inventory lock + availability check, reservation, price snapshot. -/
def checkout_item (order_id : Int) (acc : CheckoutAcc) (cart_item : CartItem) :
    CheckoutAcc × Option PyErr :=
  match acc.working.products.find?
      (fun p => p.id == cart_item.product_id && p.status == "active") with
  | none => (acc, some (.http 400 "Product not available"))
  | some product =>
    let acc1 := { acc with locks := acc.locks ++ [product.id] }
    match acc1.working.inventories.find? (fun i => i.product_id == product.id) with
    | none => (acc1, some (.http 400 "Inventory not found"))
    | some inventory =>
      if inventory.available_stock < cart_item.quantity then
        (acc1, some (.http 400 "Insufficient stock"))
      else
        let w1 := { acc1.working with
          inventories := updateFirst acc1.working.inventories
            (fun i => i.product_id == product.id) (reserveUpd cart_item.quantity) }
        let unit_price := _quantize_money product.price
        let line_total := _quantize_money (unit_price * (cart_item.quantity : Rat))
        let w2 := { w1 with order_items := w1.order_items ++
          [{ order_id := order_id, product_id := product.id,
             product_name := product.name, unit_price := unit_price,
             quantity := cart_item.quantity, total_price := line_total }] }
        ({ working := w2, subtotal := acc1.subtotal + line_total,
           total_items := acc1.total_items + cart_item.quantity,
           locks := acc1.locks }, none)

/-- The for-loop over valid cart items; stops at the first error. -/
def checkout_loop (order_id : Int) (acc : CheckoutAcc) :
    List CartItem → CheckoutAcc × Option PyErr
  | [] => (acc, none)
  | item :: rest =>
    match checkout_item order_id acc item with
    | (acc1, some e) => (acc1, some e)
    | (acc1, none) => checkout_loop order_id acc1 rest

/-- services/order_services.py: OrderService.create_order_from_cart.
Returns the lock-acquisition trace, the session after the call, and the
outcome.  The fresh primary key guarantees the final re-query returns the
order row written by this transaction, so that row is returned directly. -/
def create_order_from_cart (db : DB) (user_id : Int)
    (shipping_address payment_method : Option String) :
    List Int × SessionState × Except PyErr Order :=
  match db.carts.find? (fun c => c.user_id == user_id) with
  | none => ([], ⟨db, db⟩, .error (.http 400 "Cart not found or empty"))
  | some cart =>
    let valid_items := cart.items.filter (fun it => decide (0 < it.quantity))
    if valid_items.isEmpty then
      ([], ⟨db, db⟩, .error (.http 400 "Cart is empty or has no valid items"))
    else
      let order0 : Order :=
        { id := db.next_order_id, user_id := user_id, total_items := 0,
          subtotal := 0, tax := 0, discount := 0, grand_total := 0,
          status := "PENDING", shipping_address := shipping_address,
          payment_method := payment_method }
      let w0 := { db with orders := db.orders ++ [order0],
                          next_order_id := db.next_order_id + 1 }
      let acc0 : CheckoutAcc :=
        { working := w0, subtotal := 0, total_items := 0, locks := [] }
      match checkout_loop order0.id acc0 valid_items with
      | (acc1, some e) => (acc1.locks, ⟨db, acc1.working⟩, .error e)
      | (acc1, none) =>
        let discount : Rat := 0
        let tax := _quantize_money (acc1.subtotal * (18 / 100))
        let grand_total := _quantize_money (acc1.subtotal + tax - discount)
        let orderUpd := fun (o : Order) =>
          { o with total_items := acc1.total_items,
                   subtotal := _quantize_money acc1.subtotal,
                   tax := tax, discount := _quantize_money discount,
                   grand_total := grand_total }
        let w2 := { acc1.working with
          orders := updateFirst acc1.working.orders
            (fun o => o.id == order0.id) orderUpd,
          carts := updateFirst acc1.working.carts
            (fun c => c.user_id == user_id)
            (fun c => { c with items := (c.items.filter
              (fun it => !(decide (0 < it.quantity)))) }) }
        (acc1.locks, ⟨w2, w2⟩, .ok (orderUpd order0))

/-- services/order_services.py: OrderService.update_status. -/
def update_status (s : SessionState) (order_id : Int) (new_status : String) :
    SessionState × Except PyErr Order :=
  if !(ALLOWED_STATUSES.contains new_status) then
    (s, .error (.http 400 "Invalid order status"))
  else
    match s.working.orders.find? (fun o => o.id == order_id) with
    | none => (s, .error (.http 404 "Order not found"))
    | some order =>
      let w := { s.working with
        orders := updateFirst s.working.orders (fun o => o.id == order_id)
          (fun o => { o with status := new_status }) }
      ({ committed := w, working := w }, .ok { order with status := new_status })

/-! ## Payment service (services/payment_services.py) -/

/-- utils/payment_config.py: RAZORPAY_KEY_ID (environment constant). -/
def RAZORPAY_KEY_ID : String := "rzp_test_xxxxxxxxxxxx"

/-- schemas/payment_schema.py: PaymentVerifyRequest. -/
structure PaymentVerifyRequest where
  order_id : Int
  razorpay_order_id : String
  razorpay_payment_id : String
  razorpay_signature : String
deriving Repr, DecidableEq

/-- schemas/payment_schema.py: PaymentSessionResponse. -/
structure PaymentSessionResponse where
  razorpay_order_id : String
  amount : Int
  currency : String
  key_id : String
  order_id : Int
deriving Repr, DecidableEq

/-- schemas/payment_schema.py: PaymentRead (the dict the service returns). -/
structure PaymentRead where
  id : Int
  order_id : Int
  user_id : Int
  status : String
  amount : Rat
  currency : String
deriving Repr, DecidableEq

def paymentRead (p : Payment) : PaymentRead :=
  { id := p.id, order_id := p.order_id, user_id := p.user_id,
    status := p.status, amount := p.amount, currency := p.currency }

/-- Python int(Decimal): truncation toward zero. -/
def pyInt (x : Rat) : Int := if 0 ≤ x then Int.floor x else -(Int.floor (-x))

/-- int(Decimal(order.grand_total) * 100): rupees to paise. -/
def paise (grand_total : Rat) : Int := pyInt (grand_total * 100)

/-- models/payment_model.py declares razorpay_payment_id and
razorpay_signature NOT NULL: committing an insert that leaves either unset
raises IntegrityError. -/
def paymentInsertViolatesNotNull (p : Payment) : Bool :=
  p.razorpay_payment_id == none || p.razorpay_signature == none

/-- services/payment_services.py: PaymentService.create_payment_session.
`gw` is the gateway's order counter: razorpay_client.order.create returns a
fresh gateway order id per call, modelled as "rp_order_" ++ toString gw; the
gateway order is created before the local insert, so the counter is consumed
even when the insert's commit then fails. -/
def create_payment_session (s : SessionState) (gw : Nat) (user_id : Int)
    (order_id : Int) : (SessionState × Nat) × Except PyErr PaymentSessionResponse :=
  match s.working.orders.find? (fun o => o.id == order_id && o.user_id == user_id) with
  | none => ((s, gw), .error (.http 404 "Order not found for this user"))
  | some order =>
    if order.status == "PAID" then
      ((s, gw), .error (.http 400 "Order already paid"))
    else
      match s.working.payments.find? (fun p =>
          p.order_id == order.id && p.user_id == user_id && p.status == "PENDING") with
      | some existing_payment =>
        ((s, gw), .ok { razorpay_order_id := existing_payment.razorpay_order_id,
                        amount := paise order.grand_total, currency := "INR",
                        key_id := RAZORPAY_KEY_ID, order_id := order.id })
      | none =>
        if order.grand_total == 0 then
          ((s, gw), .error (.http 400 "Order has no payable amount"))
        else
          let amount_paise := paise order.grand_total
          let rp_order_id := "rp_order_" ++ toString gw
          let payment : Payment :=
            { id := s.working.next_payment_id, order_id := order.id,
              user_id := user_id, razorpay_order_id := rp_order_id,
              razorpay_payment_id := none, razorpay_signature := none,
              amount := order.grand_total, currency := "INR", status := "PENDING" }
          -- db.add(payment); db.commit(): the insert sets neither
          -- razorpay_payment_id nor razorpay_signature, both NOT NULL in
          -- the schema, so the commit raises IntegrityError (uncaught) and
          -- the session closes without committing anything.
          if paymentInsertViolatesNotNull payment then
            ((s, gw + 1), .error .integrityErr)
          else
            let w := { s.working with
              payments := s.working.payments ++ [payment],
              next_payment_id := s.working.next_payment_id + 1 }
            ((⟨w, w⟩, gw + 1),
             .ok { razorpay_order_id := rp_order_id, amount := amount_paise,
                   currency := "INR", key_id := RAZORPAY_KEY_ID, order_id := order.id })

/-- The row filter verify_and_capture uses to locate the payment session. -/
def verify_filter (user_id : Int) (data : PaymentVerifyRequest) (p : Payment) : Bool :=
  p.order_id == data.order_id && p.user_id == user_id &&
    p.razorpay_order_id == data.razorpay_order_id

/-- The field assignment performed on the located payment row on
verification success. -/
def successUpd (data : PaymentVerifyRequest) (p : Payment) : Payment :=
  { p with razorpay_payment_id := some data.razorpay_payment_id,
           razorpay_signature := some data.razorpay_signature,
           status := "SUCCESS" }

/-- The commit of the SUCCESS update raises IntegrityError exactly when it
would violate uq_order_payment_idempotent: some other row already carries
(order_id, razorpay_payment_id). -/
def uniqueViolation (payments : List Payment) (payment : Payment)
    (rp_payment_id : String) : Bool :=
  payments.any (fun q => q.id != payment.id && q.order_id == payment.order_id &&
    q.razorpay_payment_id == some rp_payment_id)

/-- services/payment_services.py: PaymentService.verify_and_capture_payment.
`verifySig` models razorpay_client.utility.verify_payment_signature (true =
no exception). -/
def verify_and_capture_payment (verifySig : String → String → String → Bool)
    (s : SessionState) (user_id : Int) (data : PaymentVerifyRequest) :
    SessionState × Except PyErr PaymentRead :=
  match s.working.payments.find? (verify_filter user_id data) with
  | none => (s, .error (.http 404 "Payment session not found"))
  | some payment =>
    if payment.status == "SUCCESS" then
      (s, .ok (paymentRead payment))
    else if !(verifySig data.razorpay_order_id data.razorpay_payment_id
                data.razorpay_signature) then
      let w := { s.working with
        payments := updateFirst s.working.payments (verify_filter user_id data)
          (fun p => { p with status := "FAILED" }) }
      (⟨w, w⟩, .error (.http 400 "Signature verification failed"))
    else
      let w1 := { s.working with
        payments := updateFirst s.working.payments (verify_filter user_id data)
          (successUpd data) }
      let w2 :=
        match w1.orders.find? (fun o => o.id == payment.order_id) with
        | some order =>
          if order.status != "PAID" then
            { w1 with orders := (updateFirst w1.orders
                (fun o => o.id == payment.order_id)
                (fun o => { o with status := "PAID" })) }
          else w1
        | none => w1
      if uniqueViolation s.working.payments payment data.razorpay_payment_id then
        match s.committed.payments.find? (fun q => q.order_id == data.order_id &&
            q.razorpay_payment_id == some data.razorpay_payment_id) with
        | some existing => (⟨s.committed, s.committed⟩, .ok (paymentRead existing))
        | none => (⟨s.committed, s.committed⟩, .error .attrErrorNone)
      else
        (⟨w2, w2⟩, .ok (paymentRead (successUpd data payment)))

/-! ## Concrete fixtures used by witnesses and counterexamples -/

/-- A small catalog/inventory/cart state: user 7's cart holds product 2
(qty 1) then product 1 (qty 3), i.e. items were added in descending
product-id order. -/
def sampleDB : DB :=
  { products :=
      [ { id := 1, name := "A", price := 10, status := "active" },
        { id := 2, name := "B", price := 55 / 10, status := "active" } ],
    inventories :=
      [ { product_id := 1, total_stock := 5, available_stock := 5, reserved_stock := 0 },
        { product_id := 2, total_stock := 4, available_stock := 4, reserved_stock := 0 } ],
    carts := [ { user_id := 7, items :=
      [ { product_id := 2, quantity := 1 }, { product_id := 1, quantity := 3 } ] } ],
    orders := [], order_items := [], payments := [],
    next_order_id := 1, next_payment_id := 1 }

/-- An order awaiting payment (grand_total 41.89), owned by user 7. -/
def sampleOrder : Order :=
  { id := 1, user_id := 7, total_items := 4, subtotal := 71 / 2,
    tax := 639 / 100, discount := 0, grand_total := 4189 / 100,
    status := "PENDING", shipping_address := none, payment_method := none }

/-- A store holding just sampleOrder (payment-session fixtures). -/
def samplePayDB : DB :=
  { products := [], inventories := [], carts := [], orders := [sampleOrder],
    order_items := [], payments := [], next_order_id := 2, next_payment_id := 1 }

/-- A PENDING payment session for sampleOrder with gateway order id
"rp_order_0".  Its gateway fields are unset, the state the service's own
insert would produce; under the NOT NULL schema such a row can only be
pre-seeded, not created through create_payment_session. -/
def samplePayment : Payment :=
  { id := 1, order_id := 1, user_id := 7, razorpay_order_id := "rp_order_0",
    razorpay_payment_id := none, razorpay_signature := none,
    amount := 4189 / 100, currency := "INR", status := "PENDING" }

/-- samplePayDB with the PENDING samplePayment row in store — the state the
reuse guard of create_payment_session inspects. -/
def samplePayDB2 : DB := { samplePayDB with payments := [samplePayment], next_payment_id := 2 }

/-- The verification payload matching samplePayment. -/
def sampleVerifyReq : PaymentVerifyRequest :=
  { order_id := 1, razorpay_order_id := "rp_order_0",
    razorpay_payment_id := "pay_1", razorpay_signature := "sig" }

/-- Gateway oracle: every signature verifies. -/
def sigAlwaysOk : String → String → String → Bool := fun _ _ _ => true

/-- Gateway oracle: no signature verifies. -/
def sigAlwaysBad : String → String → String → Bool := fun _ _ _ => false

/-! ## C3: checkout is all-or-nothing -/

theorem create_order_error_committed (db : DB) (user_id : Int) (sa pm : Option String) :
    (create_order_from_cart db user_id sa pm).2.1.committed = db ∨
    (∃ o, (create_order_from_cart db user_id sa pm).2.2 = .ok o) := by
  unfold create_order_from_cart
  split
  · exact .inl rfl
  · dsimp only
    split
    · exact .inl rfl
    · split
      · exact .inl rfl
      · exact .inr ⟨_, rfl⟩

/-- C3: if create_order_from_cart fails with any error — cart missing or
empty, product not active, inventory row missing, insufficient stock — the
persisted store after the attempt equals the store before it: no Order or
OrderItem survives, no cart item is deleted, and every inventory reservation
made earlier in the attempt is rolled back. -/
theorem claim_checkout_all_or_nothing (db : DB) (user_id : Int)
    (sa pm : Option String) (e : PyErr)
    (h : (create_order_from_cart db user_id sa pm).2.2 = .error e) :
    (create_order_from_cart db user_id sa pm).2.1.committed = db := by
  rcases create_order_error_committed db user_id sa pm with hc | ⟨o, ho⟩
  · exact hc
  · rw [ho] at h; cases h

/-- Witness: user 9 has no cart in sampleDB, so checkout fails, and the
store is unchanged. -/
theorem claim_checkout_all_or_nothing_witness :
    (create_order_from_cart sampleDB 9 none none).2.2 =
      .error (.http 400 "Cart not found or empty") ∧
    (create_order_from_cart sampleDB 9 none none).2.1.committed = sampleDB :=
  ⟨by rfl, claim_checkout_all_or_nothing sampleDB 9 none none
    (.http 400 "Cart not found or empty") (by rfl)⟩

/-! ## C10: payment operations and update_status never touch inventory -/

/-- Erase the one field update_status is allowed to change. -/
def stripStatus (o : Order) : Order := { o with status := "" }

theorem map_updateFirst_eq {α β : Type} (l : List α) (p : α → Bool) (f : α → α)
    (g : α → β) (hg : ∀ a, g (f a) = g a) :
    (updateFirst l p f).map g = l.map g := by
  induction l with
  | nil => rfl
  | cons a rest ih =>
    by_cases hpa : p a
    · simp [updateFirst, hpa, hg a]
    · simp [updateFirst, hpa, ih]

theorem create_payment_session_inventories (db : DB) (gw : Nat) (uid oid : Int) :
    ((create_payment_session ⟨db, db⟩ gw uid oid).1.1.committed).inventories
      = db.inventories := by
  unfold create_payment_session
  repeat' split
  all_goals rfl

theorem verify_and_capture_inventories (vs : String → String → String → Bool)
    (db : DB) (uid : Int) (data : PaymentVerifyRequest) :
    ((verify_and_capture_payment vs ⟨db, db⟩ uid data).1.committed).inventories
      = db.inventories := by
  unfold verify_and_capture_payment
  repeat' split
  all_goals try rfl
  all_goals dsimp only
  repeat' split
  all_goals rfl

theorem update_status_frame (db : DB) (oid : Int) (st : String) :
    ((update_status ⟨db, db⟩ oid st).1.committed).inventories = db.inventories ∧
    ((update_status ⟨db, db⟩ oid st).1.committed).orders.map stripStatus
      = db.orders.map stripStatus ∧
    ((update_status ⟨db, db⟩ oid st).1.committed).payments = db.payments ∧
    ((update_status ⟨db, db⟩ oid st).1.committed).carts = db.carts ∧
    ((update_status ⟨db, db⟩ oid st).1.committed).order_items = db.order_items ∧
    ((update_status ⟨db, db⟩ oid st).1.committed).products = db.products := by
  unfold update_status
  split
  · exact ⟨rfl, rfl, rfl, rfl, rfl, rfl⟩
  · split
    · exact ⟨rfl, rfl, rfl, rfl, rfl, rfl⟩
    · exact ⟨rfl, map_updateFirst_eq _ _ _ _ (fun a => rfl), rfl, rfl, rfl, rfl⟩

/-- C10: neither payment operation (create_payment_session,
verify_and_capture_payment) modifies any Inventory row, in any outcome, and
update_status leaves inventory untouched and changes orders only in their
status field (all other tables equal as well). -/
theorem claim_payment_ops_touch_no_inventory (db : DB) (gw : Nat)
    (uid oid : Int) (vs : String → String → String → Bool)
    (data : PaymentVerifyRequest) (st : String) :
    ((create_payment_session ⟨db, db⟩ gw uid oid).1.1.committed).inventories
        = db.inventories ∧
    ((verify_and_capture_payment vs ⟨db, db⟩ uid data).1.committed).inventories
        = db.inventories ∧
    ((update_status ⟨db, db⟩ oid st).1.committed).inventories = db.inventories ∧
    ((update_status ⟨db, db⟩ oid st).1.committed).orders.map stripStatus
        = db.orders.map stripStatus ∧
    ((update_status ⟨db, db⟩ oid st).1.committed).payments = db.payments ∧
    ((update_status ⟨db, db⟩ oid st).1.committed).carts = db.carts ∧
    ((update_status ⟨db, db⟩ oid st).1.committed).order_items = db.order_items ∧
    ((update_status ⟨db, db⟩ oid st).1.committed).products = db.products :=
  ⟨create_payment_session_inventories db gw uid oid,
   verify_and_capture_inventories vs db uid data,
   update_status_frame db oid st⟩

/-! ## C2: reserve_stock contract and no-oversell -/

def availOf (db : DB) (pid : Int) : Int :=
  match get_by_product_id db pid with
  | none => 0
  | some inv => inv.available_stock

def reservedOf (db : DB) (pid : Int) : Int :=
  match get_by_product_id db pid with
  | none => 0
  | some inv => inv.reserved_stock

def reserveRun (db : DB) (pid qty : Int) : DB × Bool :=
  match reserve_stock ⟨db, db⟩ pid qty with
  | (s, .ok _) => (s.committed, true)
  | (s, .error _) => (s.committed, false)

def runReserves (db : DB) (pid : Int) : List Int → DB × Int
  | [] => (db, 0)
  | q :: qs =>
    let r := reserveRun db pid q
    let rest := runReserves r.1 pid qs
    (rest.1, (if r.2 then q else 0) + rest.2)

theorem reserveRun_none (db : DB) (pid q : Int)
    (h : get_by_product_id db pid = none) : reserveRun db pid q = (db, false) := by
  unfold reserveRun reserve_stock
  have h2 : get_by_product_id (⟨db, db⟩ : SessionState).working pid = none := h
  rw [h2]

theorem reserveRun_insuff (db : DB) (pid q : Int) (inv : Inventory)
    (h : get_by_product_id db pid = some inv) (hq : inv.available_stock < q) :
    reserveRun db pid q = (db, false) := by
  unfold reserveRun reserve_stock
  have h2 : get_by_product_id (⟨db, db⟩ : SessionState).working pid = some inv := h
  rw [h2]
  simp [hq]

theorem reserveRun_ok (db : DB) (pid q : Int) (inv : Inventory)
    (h : get_by_product_id db pid = some inv) (hq : ¬ inv.available_stock < q) :
    reserveRun db pid q =
      ({ db with inventories := (updateFirst db.inventories
          (fun i => i.product_id == pid) (reserveUpd q)) }, true) := by
  unfold reserveRun reserve_stock
  have h2 : get_by_product_id (⟨db, db⟩ : SessionState).working pid = some inv := h
  rw [h2]
  simp [hq]

theorem availOf_after_reserve (db : DB) (pid q : Int) (inv : Inventory)
    (h : get_by_product_id db pid = some inv) :
    availOf { db with inventories := (updateFirst db.inventories
        (fun i => i.product_id == pid) (reserveUpd q)) } pid
      = inv.available_stock - q := by
  have hp : (fun i => i.product_id == pid) (reserveUpd q inv) = true := by
    have := List.find?_some h
    simpa [reserveUpd] using this
  unfold availOf get_by_product_id
  rw [find?_updateFirst db.inventories _ (reserveUpd q) inv h hp]
  simp [reserveUpd]

theorem runReserves_le (db : DB) (pid : Int) (qs : List Int) (h : 0 ≤ availOf db pid) :
    (runReserves db pid qs).2 ≤ availOf db pid := by
  induction qs generalizing db with
  | nil => simpa [runReserves] using h
  | cons q qs ih =>
    unfold runReserves
    cases hg : get_by_product_id db pid with
    | none =>
      rw [reserveRun_none db pid q hg]
      dsimp only
      simpa using ih db h
    | some inv =>
      by_cases hq : inv.available_stock < q
      · rw [reserveRun_insuff db pid q inv hg hq]
        dsimp only
        simpa using ih db h
      · rw [reserveRun_ok db pid q inv hg hq]
        dsimp only
        have hA : availOf db pid = inv.available_stock := by
          unfold availOf; rw [hg]
        have h1 : availOf { db with inventories := (updateFirst db.inventories
            (fun i => i.product_id == pid) (reserveUpd q)) } pid
            = inv.available_stock - q := availOf_after_reserve db pid q inv hg
        have h0 : (0:Int) ≤ inv.available_stock - q := by omega
        have h2 := ih _ (h1 ▸ h0)
        rw [h1] at h2
        simp only [if_pos]
        omega

/-- C2: reserve_stock succeeds only when the inventory row exists and
available_stock is at least qty, in which case it decrements available and
increments reserved by qty; otherwise it fails with InsufficientStock
(HTTP 400) and changes nothing.  Over any sequence of reservation attempts on
one product, the sum of granted quantities never exceeds the stock available
at the time of the first attempt. -/
theorem claim_reserve_stock_no_oversell (db : DB) (pid q : Int) (qs : List Int) :
    (∀ inv, get_by_product_id db pid = some inv → ¬ inv.available_stock < q →
        (reserve_stock ⟨db, db⟩ pid q).2 = .ok (reserveUpd q inv) ∧
        get_by_product_id ((reserve_stock ⟨db, db⟩ pid q).1.committed) pid
          = some (reserveUpd q inv)) ∧
    ((get_by_product_id db pid = none ∨
      (∃ inv, get_by_product_id db pid = some inv ∧ inv.available_stock < q)) →
        reserve_stock ⟨db, db⟩ pid q =
          (⟨db, db⟩, .error (.http 400 "Insufficient stock"))) ∧
    (0 ≤ availOf db pid → (runReserves db pid qs).2 ≤ availOf db pid) := by
  refine ⟨?_, ?_, runReserves_le db pid qs⟩
  · intro inv hg hq
    have hp : (fun i => i.product_id == pid) (reserveUpd q inv) = true := by
      have := List.find?_some hg
      simpa [reserveUpd] using this
    constructor
    · unfold reserve_stock
      have h2 : get_by_product_id (⟨db, db⟩ : SessionState).working pid = some inv := hg
      rw [h2]
      simp [hq]
    · unfold reserve_stock
      have h2 : get_by_product_id (⟨db, db⟩ : SessionState).working pid = some inv := hg
      rw [h2]
      simp only [hq, if_false, ite_false]
      unfold get_by_product_id
      exact find?_updateFirst db.inventories _ (reserveUpd q) inv hg hp
  · rintro (hg | ⟨inv, hg, hq⟩)
    · unfold reserve_stock
      have h2 : get_by_product_id (⟨db, db⟩ : SessionState).working pid = none := hg
      rw [h2]
    · unfold reserve_stock
      have h2 : get_by_product_id (⟨db, db⟩ : SessionState).working pid = some inv := hg
      rw [h2]
      simp [hq]

/-- Witness: on sampleDB (product 1 has 5 available), reserving 3 succeeds
with counters 2/3, and attempts [3, 2, 2] grant at most 5. -/
theorem claim_reserve_stock_no_oversell_witness :
    (reserve_stock ⟨sampleDB, sampleDB⟩ 1 3).2 =
      .ok { product_id := 1, total_stock := 5, available_stock := 2, reserved_stock := 3 } ∧
    (runReserves sampleDB 1 [3, 2, 2]).2 ≤ availOf sampleDB 1 := by
  constructor
  · exact ((claim_reserve_stock_no_oversell sampleDB 1 3 [3, 2, 2]).1
      { product_id := 1, total_stock := 5, available_stock := 5, reserved_stock := 0 }
      (by rfl) (by decide)).1
  · exact (claim_reserve_stock_no_oversell sampleDB 1 3 [3, 2, 2]).2.2 (by decide)

/-! ## C6: create_payment_session — the fresh-session insert cannot commit

models/payment_model.py declares razorpay_payment_id and razorpay_signature
nullable=False and the schema is created from the models
(Base.metadata.create_all, main.py), yet create_payment_session inserts a
Payment that sets neither column, so the fresh-session commit raises an
uncaught IntegrityError.  The reuse guard itself is real code and is proved
below for stores already holding a PENDING row; the create-then-reuse flow
the claim describes cannot execute as coded. -/

instance {e a : Type} [DecidableEq e] [DecidableEq a] : DecidableEq (Except e a) := fun x y =>
  match x, y with
  | .ok v, .ok w =>
    if h : v = w then .isTrue (by rw [h]) else .isFalse (by intro hc; cases hc; exact h rfl)
  | .error v, .error w =>
    if h : v = w then .isTrue (by rw [h]) else .isFalse (by intro hc; cases hc; exact h rfl)
  | .ok _, .error _ => .isFalse (by intro hc; cases hc)
  | .error _, .ok _ => .isFalse (by intro hc; cases hc)

/-- Supporting lemma: if a PENDING payment exists for (order_id, user_id) and
the order is not yet PAID, create_payment_session returns the existing
gateway session descriptor unchanged — no state change, no new gateway order
(counter unchanged), no new Payment row; and any call that returned a
response (necessarily through this reuse branch, since the fresh insert
cannot commit) can be repeated with the identical response and no change. -/
theorem pending_session_reuse (db : DB) (gw : Nat) (uid oid : Int) :
    (∀ order existing,
      db.orders.find? (fun o => o.id == oid && o.user_id == uid) = some order →
      (order.status == "PAID") = false →
      db.payments.find? (fun p => p.order_id == order.id && p.user_id == uid &&
        p.status == "PENDING") = some existing →
      create_payment_session ⟨db, db⟩ gw uid oid =
        ((⟨db, db⟩, gw), .ok
          { razorpay_order_id := existing.razorpay_order_id,
            amount := paise order.grand_total, currency := "INR",
            key_id := RAZORPAY_KEY_ID, order_id := order.id })) ∧
    (∀ s₁ gw₁ r₁,
      create_payment_session ⟨db, db⟩ gw uid oid = ((s₁, gw₁), .ok r₁) →
      create_payment_session ⟨s₁.committed, s₁.committed⟩ gw₁ uid oid
        = ((⟨s₁.committed, s₁.committed⟩, gw₁), .ok r₁)) := by
  constructor
  · intro order existing horder hpaid hpend
    unfold create_payment_session
    dsimp only
    rw [horder]
    dsimp only
    rw [hpaid]
    simp only [Bool.false_eq_true, if_false, ite_false]
    rw [hpend]
  · intro s₁ gw₁ r₁ h
    unfold create_payment_session at h
    dsimp only at h
    cases horder : db.orders.find? (fun o => o.id == oid && o.user_id == uid) with
    | none => rw [horder] at h; simp at h
    | some order =>
      rw [horder] at h
      dsimp only at h
      by_cases hpaid : (order.status == "PAID") = true
      · rw [hpaid] at h; simp at h
      · have hpaidF : (order.status == "PAID") = false := by simpa using hpaid
        rw [hpaidF] at h
        simp only [Bool.false_eq_true, if_false, ite_false] at h
        cases hpend : db.payments.find? (fun p => p.order_id == order.id &&
            p.user_id == uid && p.status == "PENDING") with
        | some existing =>
          rw [hpend] at h
          dsimp only at h
          simp only [Prod.mk.injEq, Except.ok.injEq] at h
          obtain ⟨⟨hs, hgw⟩, hr⟩ := h
          subst hs; subst hgw; subst hr
          unfold create_payment_session
          dsimp only
          rw [horder]
          dsimp only
          rw [hpaidF]
          simp only [Bool.false_eq_true, if_false, ite_false]
          rw [hpend]
        | none =>
          rw [hpend] at h
          dsimp only at h
          by_cases hzero : (order.grand_total == 0) = true
          · rw [hzero] at h; simp at h
          · have hzeroF : (order.grand_total == 0) = false := by simpa using hzero
            rw [hzeroF] at h
            simp only [Bool.false_eq_true, if_false, ite_false] at h
            -- the fresh insert violates NOT NULL, so this branch errors and
            -- cannot have produced the .ok result
            simp [paymentInsertViolatesNotNull] at h

/-- Instance of the reuse lemma: samplePayDB2 already holds the PENDING
samplePayment, so the session is reused, and a repeat call returns the
identical response. -/
theorem pending_session_reuse_instance :
    (create_payment_session ⟨samplePayDB2, samplePayDB2⟩ 1 7 1 =
      ((⟨samplePayDB2, samplePayDB2⟩, 1), .ok
        { razorpay_order_id := samplePayment.razorpay_order_id,
          amount := paise sampleOrder.grand_total, currency := "INR",
          key_id := RAZORPAY_KEY_ID, order_id := sampleOrder.id })) ∧
    (create_payment_session ⟨samplePayDB2, samplePayDB2⟩ 1 7 1 =
      ((⟨samplePayDB2, samplePayDB2⟩, 1), .ok
        { razorpay_order_id := samplePayment.razorpay_order_id,
          amount := paise sampleOrder.grand_total, currency := "INR",
          key_id := RAZORPAY_KEY_ID, order_id := sampleOrder.id })) := by
  have h1 := (pending_session_reuse samplePayDB2 1 7 1).1 sampleOrder samplePayment
    (by rfl) (by rfl) (by rfl)
  exact ⟨h1, (pending_session_reuse samplePayDB2 1 7 1).2
    ⟨samplePayDB2, samplePayDB2⟩ 1 _ h1⟩

/-- An order awaiting payment (grand_total 42.00), owned by user 7, in a
store with no Payment rows: the input on which the fresh-session path runs. -/
def freshOrder : Order := { sampleOrder with grand_total := 42 }

/-- The store holding just freshOrder. -/
def freshPayDB : DB :=
  { products := [], inventories := [], carts := [], orders := [freshOrder],
    order_items := [], payments := [], next_order_id := 2, next_payment_id := 1 }

/-- C6 (code bug evidence): on freshPayDB — Order 1 (PENDING, grand_total
42.00) owned by user 7, no Payment rows — create_payment_session passes the
ownership, not-PAID and payable-amount checks and creates a gateway order
(the counter advances from 0 to 1), but the local Payment insert leaves
razorpay_payment_id and razorpay_signature NULL although
models/payment_model.py declares both NOT NULL, so the commit raises an
uncaught IntegrityError: the call errors, no Payment row is persisted, and
no session descriptor is returned.  The fresh-session path of the claim (and
spec section 4.3), and with it the create-then-reuse consequence, cannot
execute as coded. -/
theorem claim_session_fresh_insert_bug :
    create_payment_session ⟨freshPayDB, freshPayDB⟩ 0 7 1
      = ((⟨freshPayDB, freshPayDB⟩, 1), .error .integrityErr) ∧
    ((create_payment_session ⟨freshPayDB, freshPayDB⟩ 0 7 1).1.1.committed).payments
      = [] :=
  ⟨by rfl, by rfl⟩

/-! ## C7: signature failure marks the payment FAILED (but is not terminal) -/

def sampleFailedPayment : Payment := { samplePayment with status := "FAILED" }

def sampleFailedDB : DB := { samplePayDB2 with payments := [sampleFailedPayment] }

/-- C7 counterexample: the claim's terminal clause fails on the code.  In
sampleFailedDB the payment row is already FAILED, yet a subsequent
verify_and_capture_payment call whose signature verifies returns that same
row as SUCCESS — the idempotency guard only short-circuits on SUCCESS, so a
FAILED session can still be completed without creating a new session. -/
theorem claim_signature_failure_cex :
    sampleFailedPayment.status = "FAILED" ∧
    (verify_and_capture_payment sigAlwaysOk ⟨sampleFailedDB, sampleFailedDB⟩
        7 sampleVerifyReq).2
      = .ok { id := 1, order_id := 1, user_id := 7, status := "SUCCESS",
              amount := 4189 / 100, currency := "INR" } :=
  ⟨by rfl, by rfl⟩

/-- C7 (amended): when verify_and_capture_payment is called on a
non-SUCCESS payment and the gateway signature check fails, the payment is
committed as FAILED, the orders table is untouched, and the call errors with
SignatureInvalid (HTTP 400); this outcome is NOT terminal — see the
counterexample, a later call with a verifying payload can still reach
SUCCESS on the same row. -/
theorem claim_signature_failure_marks_failed
    (vs : String → String → String → Bool) (db : DB) (uid : Int)
    (data : PaymentVerifyRequest) (payment : Payment)
    (hfind : db.payments.find? (verify_filter uid data) = some payment)
    (hst : (payment.status == "SUCCESS") = false)
    (hsig : vs data.razorpay_order_id data.razorpay_payment_id
      data.razorpay_signature = false) :
    (verify_and_capture_payment vs ⟨db, db⟩ uid data).2
        = .error (.http 400 "Signature verification failed") ∧
    ((verify_and_capture_payment vs ⟨db, db⟩ uid data).1.committed).orders
        = db.orders ∧
    ((verify_and_capture_payment vs ⟨db, db⟩ uid data).1.committed).payments.find?
        (verify_filter uid data) = some { payment with status := "FAILED" } := by
  have hp : verify_filter uid data { payment with status := "FAILED" } = true := by
    have := List.find?_some hfind
    simpa [verify_filter] using this
  unfold verify_and_capture_payment
  dsimp only
  rw [hfind]
  dsimp only
  rw [hst]
  simp only [Bool.false_eq_true, if_false, ite_false]
  rw [hsig]
  simp only [Bool.not_false, if_true, ite_true]
  refine ⟨by trivial, by trivial, ?_⟩
  exact find?_updateFirst db.payments _ _ payment hfind hp

/-- Witness: on samplePayDB2 with an always-failing gateway check, the call
errors, the order list is unchanged and the payment row is FAILED. -/
theorem claim_signature_failure_marks_failed_witness :
    (verify_and_capture_payment sigAlwaysBad ⟨samplePayDB2, samplePayDB2⟩
        7 sampleVerifyReq).2 = .error (.http 400 "Signature verification failed") ∧
    ((verify_and_capture_payment sigAlwaysBad ⟨samplePayDB2, samplePayDB2⟩
        7 sampleVerifyReq).1.committed).orders = samplePayDB2.orders ∧
    ((verify_and_capture_payment sigAlwaysBad ⟨samplePayDB2, samplePayDB2⟩
        7 sampleVerifyReq).1.committed).payments.find?
        (verify_filter 7 sampleVerifyReq)
      = some { samplePayment with status := "FAILED" } :=
  claim_signature_failure_marks_failed sigAlwaysBad samplePayDB2 7
    sampleVerifyReq samplePayment (by rfl) (by rfl) (by rfl)

/-! ## C5: uniqueness race is absorbed, winner returned -/

theorem find?_some_of_mem {α : Type} (l : List α) (p : α → Bool) (a : α)
    (ha : a ∈ l) (hp : p a = true) : ∃ w, l.find? p = some w := by
  induction l with
  | nil => cases ha
  | cons b rest ih =>
    by_cases hpb : p b = true
    · exact ⟨b, by simp [List.find?_cons, hpb]⟩
    · have hpbF : p b = false := by simpa using hpb
      rcases List.mem_cons.mp ha with rfl | ha2
      · exact absurd hp hpb
      · obtain ⟨w, hw⟩ := ih ha2
        exact ⟨w, by simp [List.find?_cons, hpbF, hw]⟩

/-- C5: when the SUCCESS commit would violate uq_order_payment_idempotent
(a concurrent verify already recorded (order_id, gateway_payment_id)), the
losing writer rolls back, re-reads the row that won — which always exists on
this conflict, so the AttributeError path for a missing winner is
unreachable — and returns that row's state as a success, never a visible
error to the caller. -/
theorem claim_verify_race_absorbed (vs : String → String → String → Bool)
    (db : DB) (uid : Int) (data : PaymentVerifyRequest) (payment : Payment)
    (hfind : db.payments.find? (verify_filter uid data) = some payment)
    (hst : (payment.status == "SUCCESS") = false)
    (hsig : vs data.razorpay_order_id data.razorpay_payment_id
      data.razorpay_signature = true)
    (hviol : uniqueViolation db.payments payment data.razorpay_payment_id = true) :
    ∃ winner,
      db.payments.find? (fun q => q.order_id == data.order_id &&
        q.razorpay_payment_id == some data.razorpay_payment_id) = some winner ∧
      verify_and_capture_payment vs ⟨db, db⟩ uid data
        = (⟨db, db⟩, .ok (paymentRead winner)) := by
  have hmatch : payment.order_id == data.order_id := by
    have := List.find?_some hfind
    unfold verify_filter at this
    exact (Bool.and_eq_true_iff.mp (Bool.and_eq_true_iff.mp this).1).1
  have hex : ∃ q ∈ db.payments, (q.order_id == data.order_id &&
      q.razorpay_payment_id == some data.razorpay_payment_id) = true := by
    unfold uniqueViolation at hviol
    obtain ⟨q, hq, hprop⟩ := List.any_eq_true.mp hviol
    refine ⟨q, hq, ?_⟩
    have h1 := (Bool.and_eq_true_iff.mp (Bool.and_eq_true_iff.mp hprop).1).2
    have h2 := (Bool.and_eq_true_iff.mp hprop).2
    have hq1 : q.order_id = payment.order_id := by simpa using h1
    have hp1 : payment.order_id = data.order_id := by simpa using hmatch
    simp [hq1, hp1, h2]
  obtain ⟨q, hq, hp⟩ := hex
  obtain ⟨winner, hwin⟩ := find?_some_of_mem db.payments
    (fun q => q.order_id == data.order_id &&
      q.razorpay_payment_id == some data.razorpay_payment_id) q hq hp
  refine ⟨winner, hwin, ?_⟩
  unfold verify_and_capture_payment
  dsimp only
  rw [hfind]
  dsimp only
  rw [hst]
  simp only [Bool.false_eq_true, if_false, ite_false]
  rw [hsig]
  simp only [Bool.not_true, Bool.false_eq_true, if_false, ite_false]
  rw [hviol]
  simp only [if_true, ite_true]
  rw [hwin]

def raceWinner : Payment :=
  { id := 5, order_id := 1, user_id := 7, razorpay_order_id := "rp_order_9",
    razorpay_payment_id := some "pay_1", razorpay_signature := some "s",
    amount := 1, currency := "INR", status := "SUCCESS" }

def raceDB : DB := { samplePayDB2 with payments := [samplePayment, raceWinner] }

/-- Witness: raceDB holds the loser (PENDING) and the winner (id 5) carrying
(order 1, pay_1); verification is absorbed and returns the winner. -/
theorem claim_verify_race_absorbed_witness :
    ∃ winner,
      raceDB.payments.find? (fun q => q.order_id == sampleVerifyReq.order_id &&
        q.razorpay_payment_id == some sampleVerifyReq.razorpay_payment_id)
        = some winner ∧
      verify_and_capture_payment sigAlwaysOk ⟨raceDB, raceDB⟩ 7 sampleVerifyReq
        = (⟨raceDB, raceDB⟩, .ok (paymentRead winner)) :=
  claim_verify_race_absorbed sigAlwaysOk raceDB 7 sampleVerifyReq samplePayment
    (by rfl) (by rfl) (by rfl) (by rfl)

/-! ## C1: verify_and_capture_payment is idempotent -/

/-- The (order_id, razorpay_payment_id) pair targeted by
uq_order_payment_idempotent. -/
def pairPred (oid : Int) (pid : String) (p : Payment) : Bool :=
  p.order_id == oid && p.razorpay_payment_id == some pid

/-- Number of payment rows carrying a given (order_id, razorpay_payment_id). -/
def pairCount (l : List Payment) (oid : Int) (pid : String) : Nat :=
  (l.filter (pairPred oid pid)).length

theorem pairCount_updateFirst_eq (l : List Payment) (p : Payment → Bool)
    (f : Payment → Payment) (oid : Int) (pid : String)
    (hf : ∀ a, pairPred oid pid (f a) = pairPred oid pid a) :
    pairCount (updateFirst l p f) oid pid = pairCount l oid pid := by
  induction l with
  | nil => rfl
  | cons a rest ih =>
    by_cases hpa : p a
    · simp only [updateFirst, hpa, if_true, ite_true]
      unfold pairCount at *
      simp only [List.filter_cons, hf a]
      cases pairPred oid pid a <;> simp
    · simp only [updateFirst, hpa, if_false, ite_false]
      unfold pairCount at *
      cases hq : pairPred oid pid a <;> simp [List.filter_cons, hq, ih]

theorem pairCount_after_success (l : List Payment) (uid : Int)
    (data : PaymentVerifyRequest) (payment : Payment) (oid : Int) (pid : String)
    (hfind : l.find? (verify_filter uid data) = some payment)
    (hids : l.Pairwise (fun a b => a.id ≠ b.id))
    (hviol : uniqueViolation l payment data.razorpay_payment_id = false)
    (hcount : pairCount l oid pid ≤ 1) :
    pairCount (updateFirst l (verify_filter uid data) (successUpd data)) oid pid ≤ 1 := by
  obtain ⟨l₁, l₂, he, hu, hl₁⟩ :=
    updateFirst_split l (verify_filter uid data) (successUpd data) payment hfind
  subst he
  rw [hu]
  unfold pairCount at *
  simp only [List.filter_append, List.length_append, List.filter_cons] at *
  rw [List.pairwise_append] at hids
  by_cases hnew : pairPred oid pid (successUpd data payment) = true
  · -- the updated row carries the pair: no other row may, else uniqueViolation
    have hpair : payment.order_id = oid ∧ data.razorpay_payment_id = pid := by
      unfold pairPred successUpd at hnew
      constructor
      · simpa using (Bool.and_eq_true_iff.mp hnew).1
      · have := (Bool.and_eq_true_iff.mp hnew).2
        simpa using this
    have hnone : ∀ q, q ∈ l₁ ∨ q ∈ l₂ → q.id ≠ payment.id →
        pairPred oid pid q = false := by
      intro q hq hqid
      by_contra hqp
      have hqp2 : pairPred oid pid q = true := by
        cases hq2 : pairPred oid pid q
        · exact absurd hq2 hqp
        · rfl
      have hmem : q ∈ l₁ ++ payment :: l₂ := by
        rcases hq with hq | hq
        · exact List.mem_append_left _ hq
        · exact List.mem_append_right _ (List.mem_cons_of_mem _ hq)
      have : uniqueViolation (l₁ ++ payment :: l₂) payment
          data.razorpay_payment_id = true := by
        unfold uniqueViolation
        refine List.any_eq_true.mpr ⟨q, hmem, ?_⟩
        unfold pairPred at hqp2
        have h1 := (Bool.and_eq_true_iff.mp hqp2).1
        have h2 := (Bool.and_eq_true_iff.mp hqp2).2
        have hqo : q.order_id = oid := by simpa using h1
        have hqr : q.razorpay_payment_id = some data.razorpay_payment_id := by
          have := hpair.2
          subst this
          simpa using h2
        simp [hqid, hqo, hpair.1, hqr]
      rw [this] at hviol
      cases hviol
    have hz1 : l₁.filter (pairPred oid pid) = [] := by
      refine List.filter_eq_nil_iff.mpr (fun q hq => ?_)
      have hqid : q.id ≠ payment.id :=
        hids.2.2 q hq payment (List.mem_cons_self payment l₂)
      simp [hnone q (Or.inl hq) hqid]
    have hz2 : l₂.filter (pairPred oid pid) = [] := by
      refine List.filter_eq_nil_iff.mpr (fun q hq => ?_)
      have hqid : payment.id ≠ q.id :=
        (List.pairwise_cons.mp hids.2.1).1 q hq
      simp [hnone q (Or.inr hq) (Ne.symm hqid)]
    rw [hnew, hz1, hz2]
    simp
  · have hnewF : pairPred oid pid (successUpd data payment) = false := by
      cases hq : pairPred oid pid (successUpd data payment)
      · rfl
      · exact absurd hq hnew
    rw [hnewF]
    simp only [Bool.false_eq_true, if_false, ite_false]
    cases hold : pairPred oid pid payment <;> (simp_all; try omega)

theorem verify_committed_payments (vs : String → String → String → Bool)
    (db : DB) (uid : Int) (data : PaymentVerifyRequest) :
    ((verify_and_capture_payment vs ⟨db, db⟩ uid data).1.committed).payments
        = db.payments ∨
    ((verify_and_capture_payment vs ⟨db, db⟩ uid data).1.committed).payments
        = updateFirst db.payments (verify_filter uid data)
            (fun p => { p with status := "FAILED" }) ∨
    (∃ payment, db.payments.find? (verify_filter uid data) = some payment ∧
      uniqueViolation db.payments payment data.razorpay_payment_id = false ∧
      ((verify_and_capture_payment vs ⟨db, db⟩ uid data).1.committed).payments
        = updateFirst db.payments (verify_filter uid data) (successUpd data)) := by
  unfold verify_and_capture_payment
  dsimp only
  cases hfind : db.payments.find? (verify_filter uid data) with
  | none => exact .inl (by trivial)
  | some payment =>
    dsimp only
    by_cases hst : (payment.status == "SUCCESS") = true
    · rw [hst]; simp only [if_true, ite_true]; exact .inl (by trivial)
    · have hstF : (payment.status == "SUCCESS") = false := by simpa using hst
      rw [hstF]
      simp only [Bool.false_eq_true, if_false, ite_false]
      by_cases hsig : vs data.razorpay_order_id data.razorpay_payment_id
          data.razorpay_signature = true
      · rw [hsig]
        simp only [Bool.not_true, Bool.false_eq_true, if_false, ite_false]
        by_cases hviol : uniqueViolation db.payments payment
            data.razorpay_payment_id = true
        · rw [hviol]
          simp only [if_true, ite_true]
          cases hwin : db.payments.find? (fun q => q.order_id == data.order_id &&
              q.razorpay_payment_id == some data.razorpay_payment_id) with
          | none => exact .inl (by trivial)
          | some w => exact .inl (by trivial)
        · have hviolF : uniqueViolation db.payments payment
              data.razorpay_payment_id = false := by simpa using hviol
          rw [hviolF]
          simp only [Bool.false_eq_true, if_false, ite_false]
          refine .inr (.inr ⟨payment, rfl, hviolF, ?_⟩)
          split
          · split
            · rfl
            · rfl
          · rfl
      · have hsigF : vs data.razorpay_order_id data.razorpay_payment_id
            data.razorpay_signature = false := by simpa using hsig
        rw [hsigF]
        simp only [Bool.not_false, if_true, ite_true]
        exact .inr (.inl (by trivial))

theorem verify_success_guard (vs : String → String → String → Bool) (db : DB)
    (uid : Int) (data : PaymentVerifyRequest) (payment : Payment)
    (hfind : db.payments.find? (verify_filter uid data) = some payment)
    (hst : (payment.status == "SUCCESS") = true) :
    verify_and_capture_payment vs ⟨db, db⟩ uid data
      = (⟨db, db⟩, .ok (paymentRead payment)) := by
  unfold verify_and_capture_payment
  dsimp only
  rw [hfind]
  dsimp only
  rw [hst]
  simp only [if_true, ite_true]

theorem verify_pair_unique (vs : String → String → String → Bool) (db : DB)
    (uid : Int) (data : PaymentVerifyRequest) (oid : Int) (pid : String)
    (hids : db.payments.Pairwise (fun a b => a.id ≠ b.id))
    (hcount : pairCount db.payments oid pid ≤ 1) :
    pairCount ((verify_and_capture_payment vs ⟨db, db⟩ uid data).1.committed).payments
      oid pid ≤ 1 := by
  rcases verify_committed_payments vs db uid data with h | h | ⟨payment, hfind, hviolF, h⟩
  · rw [h]; exact hcount
  · rw [h, pairCount_updateFirst_eq db.payments (verify_filter uid data)
      (fun p => { p with status := "FAILED" }) oid pid (fun a => rfl)]
    exact hcount
  · rw [h]
    exact pairCount_after_success db.payments uid data payment oid pid hfind hids
      hviolF hcount

theorem verify_idempotent_pair (vs : String → String → String → Bool) (db : DB)
    (uid : Int) (data : PaymentVerifyRequest) :
    ∀ s₁ r₁, verify_and_capture_payment vs ⟨db, db⟩ uid data = (s₁, .ok r₁) →
      verify_and_capture_payment vs ⟨s₁.committed, s₁.committed⟩ uid data
        = (⟨s₁.committed, s₁.committed⟩, .ok r₁) := by
  intro s₁ r₁ h
  unfold verify_and_capture_payment at h
  dsimp only at h
  cases hfind : db.payments.find? (verify_filter uid data) with
  | none => rw [hfind] at h; simp at h
  | some payment =>
    rw [hfind] at h
    dsimp only at h
    by_cases hst : (payment.status == "SUCCESS") = true
    · rw [hst] at h
      simp only [if_true, ite_true] at h
      simp only [Prod.mk.injEq, Except.ok.injEq] at h
      obtain ⟨hs, hr⟩ := h
      subst hs; subst hr
      unfold verify_and_capture_payment
      dsimp only
      rw [hfind]
      dsimp only
      rw [hst]
      simp only [if_true, ite_true]
    · have hstF : (payment.status == "SUCCESS") = false := by simpa using hst
      rw [hstF] at h
      simp only [Bool.false_eq_true, if_false, ite_false] at h
      by_cases hsig : vs data.razorpay_order_id data.razorpay_payment_id
          data.razorpay_signature = true
      · rw [hsig] at h
        simp only [Bool.not_true, Bool.false_eq_true, if_false, ite_false] at h
        by_cases hviol : uniqueViolation db.payments payment
            data.razorpay_payment_id = true
        · rw [hviol] at h
          simp only [if_true, ite_true] at h
          cases hwin : db.payments.find? (fun q => q.order_id == data.order_id &&
              q.razorpay_payment_id == some data.razorpay_payment_id) with
          | none => rw [hwin] at h; simp at h
          | some w =>
            rw [hwin] at h
            dsimp only at h
            simp only [Prod.mk.injEq, Except.ok.injEq] at h
            obtain ⟨hs, hr⟩ := h
            subst hs; subst hr
            unfold verify_and_capture_payment
            dsimp only
            rw [hfind]
            dsimp only
            rw [hstF]
            simp only [Bool.false_eq_true, if_false, ite_false]
            rw [hsig]
            simp only [Bool.not_true, Bool.false_eq_true, if_false, ite_false]
            rw [hviol]
            simp only [if_true, ite_true]
            rw [hwin]
        · have hviolF : uniqueViolation db.payments payment
              data.razorpay_payment_id = false := by simpa using hviol
          rw [hviolF] at h
          simp only [Bool.false_eq_true, if_false, ite_false] at h
          have hpred : verify_filter uid data (successUpd data payment) = true := by
            have := List.find?_some hfind
            unfold verify_filter at *
            simpa [successUpd] using this
          have hfind2 : (updateFirst db.payments (verify_filter uid data)
              (successUpd data)).find? (verify_filter uid data)
              = some (successUpd data payment) :=
            find?_updateFirst db.payments _ (successUpd data) payment hfind hpred
          have hstS : ((successUpd data payment).status == "SUCCESS") = true := by
            simp [successUpd]
          cases horder : db.orders.find? (fun o => o.id == payment.order_id) with
          | none =>
            rw [horder] at h
            dsimp only at h
            simp only [Prod.mk.injEq, Except.ok.injEq] at h
            obtain ⟨hs, hr⟩ := h
            subst hs; subst hr
            unfold verify_and_capture_payment
            dsimp only
            rw [hfind2]
            dsimp only
            rw [hstS]
            simp only [if_true, ite_true]
          | some order =>
            rw [horder] at h
            dsimp only at h
            by_cases hpaid : (order.status != "PAID") = true
            · rw [hpaid] at h
              simp only [if_true, ite_true] at h
              simp only [Prod.mk.injEq, Except.ok.injEq] at h
              obtain ⟨hs, hr⟩ := h
              subst hs; subst hr
              unfold verify_and_capture_payment
              dsimp only
              rw [hfind2]
              dsimp only
              rw [hstS]
              simp only [if_true, ite_true]
            · have hpaidF : (order.status != "PAID") = false := by simpa using hpaid
              rw [hpaidF] at h
              simp only [Bool.false_eq_true, if_false, ite_false] at h
              simp only [Prod.mk.injEq, Except.ok.injEq] at h
              obtain ⟨hs, hr⟩ := h
              subst hs; subst hr
              unfold verify_and_capture_payment
              dsimp only
              rw [hfind2]
              dsimp only
              rw [hstS]
              simp only [if_true, ite_true]
      · have hsigF : vs data.razorpay_order_id data.razorpay_payment_id
            data.razorpay_signature = false := by simpa using hsig
        rw [hsigF] at h
        simp only [Bool.not_false, if_true, ite_true] at h
        simp at h

/-- C1: (guard) for a Payment row already SUCCESS located by
(order_id, user_id, gateway_order_id), verify_and_capture_payment returns the
existing record with the session state exactly ⟨db, db⟩ — no write, so the
order status is not flipped again; (idempotence) any successful call followed
by a second call with the identical payload returns the identical PaymentRead
and leaves the committed store unchanged; (uniqueness) if payment ids are
distinct and at most one row carries a given (order_id, gateway_payment_id),
that bound is preserved, so at most one row per pair ever reaches SUCCESS. -/
theorem claim_verify_idempotent (vs : String → String → String → Bool) (db : DB)
    (uid : Int) (data : PaymentVerifyRequest) :
    (∀ payment, db.payments.find? (verify_filter uid data) = some payment →
      (payment.status == "SUCCESS") = true →
      verify_and_capture_payment vs ⟨db, db⟩ uid data
        = (⟨db, db⟩, .ok (paymentRead payment))) ∧
    (∀ s₁ r₁, verify_and_capture_payment vs ⟨db, db⟩ uid data = (s₁, .ok r₁) →
      verify_and_capture_payment vs ⟨s₁.committed, s₁.committed⟩ uid data
        = (⟨s₁.committed, s₁.committed⟩, .ok r₁)) ∧
    (∀ oid pid, db.payments.Pairwise (fun a b => a.id ≠ b.id) →
      pairCount db.payments oid pid ≤ 1 →
      pairCount ((verify_and_capture_payment vs ⟨db, db⟩ uid data).1.committed).payments
        oid pid ≤ 1) :=
  ⟨fun payment hf hs => verify_success_guard vs db uid data payment hf hs,
   verify_idempotent_pair vs db uid data,
   fun oid pid hids hcount => verify_pair_unique vs db uid data oid pid hids hcount⟩

def sampleSuccessPayment : Payment :=
  { samplePayment with
    razorpay_payment_id := some "pay_1"
    razorpay_signature := some "sig"
    status := "SUCCESS" }

def samplePaidOrder : Order := { sampleOrder with status := "PAID" }

def sampleSuccessDB : DB :=
  { samplePayDB2 with orders := [samplePaidOrder], payments := [sampleSuccessPayment] }

/-- Witness: sampleSuccessDB's payment is already SUCCESS; the guard
returns it unchanged, the repeat call agrees, and the pair count stays at
most one. -/
theorem claim_verify_idempotent_witness :
    (verify_and_capture_payment sigAlwaysOk ⟨sampleSuccessDB, sampleSuccessDB⟩
        7 sampleVerifyReq
      = (⟨sampleSuccessDB, sampleSuccessDB⟩, .ok (paymentRead sampleSuccessPayment))) ∧
    (verify_and_capture_payment sigAlwaysOk ⟨sampleSuccessDB, sampleSuccessDB⟩
        7 sampleVerifyReq
      = (⟨sampleSuccessDB, sampleSuccessDB⟩, .ok (paymentRead sampleSuccessPayment))) ∧
    pairCount ((verify_and_capture_payment sigAlwaysOk
        ⟨sampleSuccessDB, sampleSuccessDB⟩ 7 sampleVerifyReq).1.committed).payments
        1 "pay_1" ≤ 1 := by
  have h1 := (claim_verify_idempotent sigAlwaysOk sampleSuccessDB 7 sampleVerifyReq).1
    sampleSuccessPayment (by rfl) (by rfl)
  have h2 := (claim_verify_idempotent sigAlwaysOk sampleSuccessDB 7 sampleVerifyReq).2.1
    ⟨sampleSuccessDB, sampleSuccessDB⟩ (paymentRead sampleSuccessPayment) h1
  have h3 := (claim_verify_idempotent sigAlwaysOk sampleSuccessDB 7 sampleVerifyReq).2.2
    1 "pay_1" (by simp [sampleSuccessDB, samplePayDB2]) (by decide)
  exact ⟨h1, h2, h3⟩

/-! ## C8: order pricing rounding law -/

theorem checkout_item_subtotal (oid : Int) (acc : CheckoutAcc) (item : CartItem)
    (acc1 : CheckoutAcc) (h : checkout_item oid acc item = (acc1, none)) :
    ∃ lt, Cents lt ∧ acc1.subtotal = acc.subtotal + lt := by
  unfold checkout_item at h
  split at h
  · simp at h
  · dsimp only at h
    split at h
    · simp at h
    · split at h
      · simp at h
      · simp only [Prod.mk.injEq] at h
        obtain ⟨h1, _⟩ := h
        subst h1
        exact ⟨_, quantizeMoney_cents _, rfl⟩

theorem checkout_loop_cents (oid : Int) (items : List CartItem) :
    ∀ acc acc1, Cents acc.subtotal →
      checkout_loop oid acc items = (acc1, none) → Cents acc1.subtotal := by
  induction items with
  | nil =>
    intro acc acc1 hC h
    unfold checkout_loop at h
    simp only [Prod.mk.injEq] at h
    obtain ⟨h1, _⟩ := h
    subst h1
    exact hC
  | cons item rest ih =>
    intro acc acc1 hC h
    unfold checkout_loop at h
    split at h
    · simp at h
    · rename_i acc2 hitem
      obtain ⟨lt, hlt, hsub⟩ := checkout_item_subtotal oid acc item acc2 hitem
      exact ih acc2 acc1 (hsub ▸ cents_add hC hlt) h

theorem create_order_ok_shape (db : DB) (uid : Int) (sa pm : Option String)
    (o : Order) (h : (create_order_from_cart db uid sa pm).2.2 = .ok o) :
    ∃ sub, Cents sub ∧
      o.subtotal = _quantize_money sub ∧
      o.tax = _quantize_money (sub * (18 / 100)) ∧
      o.discount = _quantize_money 0 ∧
      o.grand_total
        = _quantize_money (sub + _quantize_money (sub * (18 / 100)) - 0) := by
  unfold create_order_from_cart at h
  split at h
  · simp at h
  · dsimp only at h
    split at h
    · simp at h
    · split at h
      · simp at h
      · rename_i acc1 hloop
        simp only [Except.ok.injEq] at h
        subst h
        refine ⟨acc1.subtotal, ?_, rfl, rfl, rfl, rfl⟩
        exact checkout_loop_cents _ _ _ _ cents_zero hloop

/-- C8: every successfully created order has discount zero, tax equal to 18%
of the subtotal rounded half-up to 2 decimals, and
grand_total = subtotal + tax - discount exactly to the cent; each term is
quantized independently (the loop quantizes each line total, so the subtotal
is an exact cent amount and re-quantizing it or the final sum is lossless). -/
theorem claim_order_totals_rounding (db : DB) (uid : Int) (sa pm : Option String)
    (o : Order) (h : (create_order_from_cart db uid sa pm).2.2 = .ok o) :
    o.discount = 0 ∧
    o.tax = _quantize_money (o.subtotal * (18 / 100)) ∧
    o.grand_total = o.subtotal + o.tax - o.discount := by
  obtain ⟨sub, hC, hsub, htax, hdisc, hg⟩ := create_order_ok_shape db uid sa pm o h
  unfold _quantize_money at *
  have hq : quantizeMoney sub = sub := quantizeMoney_cents_id hC
  have hdisc0 : o.discount = 0 := by
    rw [hdisc]; exact quantizeMoney_cents_id cents_zero
  have hsub2 : o.subtotal = sub := by rw [hsub, hq]
  have htaxC : Cents (quantizeMoney (sub * (18 / 100))) := quantizeMoney_cents _
  refine ⟨hdisc0, ?_, ?_⟩
  · rw [htax, hsub2]
  · rw [hg, hsub2, htax, hdisc0]
    have hz : sub + quantizeMoney (sub * (18 / 100)) - 0
        = sub + quantizeMoney (sub * (18 / 100)) := by ring
    rw [hz, quantizeMoney_cents_id (cents_add hC htaxC)]

/-- Witness: checking out sampleDB's cart (3 x 10.00 + 1 x 5.50) satisfies
the rounding law (subtotal 35.50, tax 6.39, grand total 41.89). -/
theorem claim_order_totals_rounding_witness :
    ∃ o, (create_order_from_cart sampleDB 7 none none).2.2 = .ok o ∧
      o.discount = 0 ∧ o.tax = _quantize_money (o.subtotal * (18 / 100)) ∧
      o.grand_total = o.subtotal + o.tax - o.discount :=
  ⟨_, by rfl, claim_order_totals_rounding sampleDB 7 none none _ (by rfl)⟩

/-! ## C9: inventory lock-acquisition order -/

/-- C9 counterexample: in sampleDB user 7's cart holds product 2 before
product 1, and the inventory-lock acquisition trace of a successful checkout
is [2, 1] — cart insertion order, not ascending product_id, so the claimed
sort does not happen. -/
theorem claim_lock_order_cex :
    (create_order_from_cart sampleDB 7 none none).1 = [2, 1] ∧
    ¬ List.Pairwise (fun a b => a ≤ b) (create_order_from_cart sampleDB 7 none none).1 := by
  have h : (create_order_from_cart sampleDB 7 none none).1 = [2, 1] := by rfl
  refine ⟨h, ?_⟩
  rw [h]
  decide

theorem checkout_item_locks (oid : Int) (acc : CheckoutAcc) (item : CartItem)
    (acc1 : CheckoutAcc) (h : checkout_item oid acc item = (acc1, none)) :
    acc1.locks = acc.locks ++ [item.product_id] := by
  unfold checkout_item at h
  split at h
  · simp at h
  · rename_i product hprod
    have hid : product.id = item.product_id := by
      have := List.find?_some hprod
      simpa using (Bool.and_eq_true_iff.mp this).1
    dsimp only at h
    split at h
    · simp at h
    · split at h
      · simp at h
      · simp only [Prod.mk.injEq] at h
        obtain ⟨h1, _⟩ := h
        subst h1
        rw [hid]

theorem checkout_loop_locks (oid : Int) (items : List CartItem) :
    ∀ acc acc1, checkout_loop oid acc items = (acc1, none) →
      acc1.locks = acc.locks ++ items.map (fun it => it.product_id) := by
  induction items with
  | nil =>
    intro acc acc1 h
    unfold checkout_loop at h
    simp only [Prod.mk.injEq] at h
    obtain ⟨h1, _⟩ := h
    subst h1
    simp
  | cons item rest ih =>
    intro acc acc1 h
    unfold checkout_loop at h
    split at h
    · simp at h
    · rename_i acc2 hitem
      have h2 := checkout_item_locks oid acc item acc2 hitem
      rw [ih acc2 acc1 h, h2]
      simp

theorem create_order_locks_cases (db : DB) (uid : Int) (sa pm : Option String) :
    (∃ e, (create_order_from_cart db uid sa pm).2.2 = .error e) ∨
    (∃ cart, db.carts.find? (fun c => c.user_id == uid) = some cart ∧
      (create_order_from_cart db uid sa pm).1
        = (cart.items.filter (fun it => decide (0 < it.quantity))).map
            (fun it => it.product_id)) := by
  unfold create_order_from_cart
  split
  · exact .inl ⟨_, rfl⟩
  · rename_i cart hcart
    dsimp only
    split
    · exact .inl ⟨_, rfl⟩
    · split
      · exact .inl ⟨_, rfl⟩
      · rename_i acc1 hloop
        refine .inr ⟨cart, hcart, ?_⟩
        have := checkout_loop_locks db.next_order_id
          (cart.items.filter (fun it => decide (0 < it.quantity))) _ acc1 hloop
        simpa using this

/-- C9 (amended): create_order_from_cart processes line items in the order
they appear in the cart's item list; on a successful checkout the sequence of
inventory lock acquisitions equals the positive-quantity cart items' product
ids in cart order (no sorting by product_id is performed). -/
theorem claim_lock_order (db : DB) (uid : Int) (sa pm : Option String) (o : Order)
    (h : (create_order_from_cart db uid sa pm).2.2 = .ok o) :
    ∃ cart, db.carts.find? (fun c => c.user_id == uid) = some cart ∧
      (create_order_from_cart db uid sa pm).1
        = (cart.items.filter (fun it => decide (0 < it.quantity))).map
            (fun it => it.product_id) := by
  rcases create_order_locks_cases db uid sa pm with ⟨e, he⟩ | hc
  · rw [he] at h; cases h
  · exact hc

/-- Witness: sampleDB's successful checkout locks [2, 1], exactly the cart
order of its positive-quantity items. -/
theorem claim_lock_order_witness :
    ∃ cart, sampleDB.carts.find? (fun c => c.user_id == 7) = some cart ∧
      (create_order_from_cart sampleDB 7 none none).1
        = (cart.items.filter (fun it => decide (0 < it.quantity))).map
            (fun it => it.product_id) :=
  claim_lock_order sampleDB 7 none none _ (by rfl)

/-! ## C4: inventory ledger invariants -/

/-- The ledger sum invariant for one row. -/
def invOK (i : Inventory) : Prop :=
  i.total_stock = i.available_stock + i.reserved_stock

/-- Non-negative counters for one row. -/
def invNonneg (i : Inventory) : Prop :=
  0 ≤ i.available_stock ∧ 0 ≤ i.reserved_stock

instance (i : Inventory) : Decidable (invOK i) := by unfold invOK; infer_instance

instance (i : Inventory) : Decidable (invNonneg i) := by unfold invNonneg; infer_instance

def sumInvariant (db : DB) : Prop := ∀ i ∈ db.inventories, invOK i

def nonnegInvariant (db : DB) : Prop := ∀ i ∈ db.inventories, invNonneg i

/-- An initially empty store. -/
def emptyDB : DB :=
  { products := [], inventories := [], carts := [], orders := [],
    order_items := [], payments := [], next_order_id := 1, next_payment_id := 1 }

theorem updateFirst_preserves_of_find {α : Type} {P : α → Prop} (l : List α)
    (p : α → Bool) (f : α → α) (a : α) (hfind : l.find? p = some a)
    (hl : ∀ x ∈ l, P x) (hfa : P (f a)) : ∀ x ∈ updateFirst l p f, P x := by
  obtain ⟨l₁, l₂, he, hu, _⟩ := updateFirst_split l p f a hfind
  subst he
  rw [hu]
  intro x hx
  rcases List.mem_append.mp hx with h1 | h2
  · exact hl x (List.mem_append_left _ h1)
  · rcases List.mem_cons.mp h2 with rfl | h3
    · exact hfa
    · exact hl x (List.mem_append_right _ (List.mem_cons_of_mem _ h3))

theorem create_inventory_invariants (db : DB) (pid stock : Int) :
    (sumInvariant db →
      sumInvariant ((create_inventory_for_product ⟨db, db⟩ pid stock).1.committed)) ∧
    (nonnegInvariant db → 0 ≤ stock →
      nonnegInvariant ((create_inventory_for_product ⟨db, db⟩ pid stock).1.committed)) := by
  unfold create_inventory_for_product
  dsimp only
  split
  · exact ⟨fun h => h, fun h _ => h⟩
  · constructor
    · intro h i hi
      rcases List.mem_append.mp hi with h1 | h2
      · exact h i h1
      · rcases List.mem_cons.mp h2 with rfl | h3
        · unfold invOK; simp
        · cases h3
    · intro h hstock i hi
      rcases List.mem_append.mp hi with h1 | h2
      · exact h i h1
      · rcases List.mem_cons.mp h2 with rfl | h3
        · exact ⟨hstock, le_refl 0⟩
        · cases h3

theorem reserve_stock_invariants (db : DB) (pid q : Int) :
    (sumInvariant db →
      sumInvariant ((reserve_stock ⟨db, db⟩ pid q).1.committed)) ∧
    (nonnegInvariant db → 0 ≤ q →
      nonnegInvariant ((reserve_stock ⟨db, db⟩ pid q).1.committed)) := by
  unfold reserve_stock
  dsimp only
  cases hfind : get_by_product_id db pid with
  | none => exact ⟨fun h => h, fun h _ => h⟩
  | some inv =>
    dsimp only
    by_cases hq : inv.available_stock < q
    · rw [if_pos hq]
      exact ⟨fun h => h, fun h _ => h⟩
    · rw [if_neg hq]
      unfold get_by_product_id at hfind
      constructor
      · intro h
        refine updateFirst_preserves_of_find db.inventories _ (reserveUpd q) inv hfind h ?_
        have h2 := h inv (List.mem_of_find?_eq_some hfind)
        simp only [invOK, reserveUpd] at h2 ⊢
        omega
      · intro h hq0
        refine updateFirst_preserves_of_find db.inventories _ (reserveUpd q) inv hfind h ?_
        have h2 := h inv (List.mem_of_find?_eq_some hfind)
        simp only [invNonneg, reserveUpd] at h2 ⊢
        omega

theorem finalize_loop_sumOK (items : List OrderItem) :
    ∀ invs invs2, (∀ i ∈ invs, invOK i) → finalize_loop invs items = .ok invs2 →
      ∀ i ∈ invs2, invOK i := by
  induction items with
  | nil =>
    intro invs invs2 h hf
    unfold finalize_loop at hf
    simp only [Except.ok.injEq] at hf
    subst hf
    exact h
  | cons item rest ih =>
    intro invs invs2 h hf
    unfold finalize_loop at hf
    split at hf
    · cases hf
    · refine ih _ invs2 ?_ hf
      refine updateFirst_preserves _ _ _ h ?_
      intro x hx hpx
      have h2 := h x hx
      simp only [invOK] at h2 ⊢
      omega

theorem rollback_loop_sumOK (items : List OrderItem) :
    ∀ invs invs2, (∀ i ∈ invs, invOK i) → rollback_loop invs items = .ok invs2 →
      ∀ i ∈ invs2, invOK i := by
  induction items with
  | nil =>
    intro invs invs2 h hf
    unfold rollback_loop at hf
    simp only [Except.ok.injEq] at hf
    subst hf
    exact h
  | cons item rest ih =>
    intro invs invs2 h hf
    unfold rollback_loop at hf
    split at hf
    · cases hf
    · refine ih _ invs2 ?_ hf
      refine updateFirst_preserves _ _ _ h ?_
      intro x hx hpx
      have h2 := h x hx
      simp only [invOK] at h2 ⊢
      omega

theorem finalize_stock_sumOK (db : DB) (oid : Int) (h : sumInvariant db) :
    sumInvariant ((finalize_stock ⟨db, db⟩ oid).1.committed) := by
  unfold finalize_stock
  dsimp only
  cases hf : finalize_loop db.inventories
      (db.order_items.filter (fun it => it.order_id == oid)) with
  | error e => exact h
  | ok invs2 =>
    intro i hi
    exact finalize_loop_sumOK _ db.inventories invs2 h hf i hi

theorem rollback_stock_sumOK (db : DB) (oid : Int) (h : sumInvariant db) :
    sumInvariant ((rollback_stock ⟨db, db⟩ oid).1.committed) := by
  unfold rollback_stock
  dsimp only
  split
  · exact h
  · cases hf : rollback_loop db.inventories
        (db.order_items.filter (fun it => it.order_id == oid)) with
    | error e => exact h
    | ok invs2 =>
      intro i hi
      exact rollback_loop_sumOK _ db.inventories invs2 h hf i hi

theorem update_inventory_sumOK (db : DB) (pid ts : Int) (h : sumInvariant db) :
    sumInvariant ((update_inventory ⟨db, db⟩ pid ts).1.committed) := by
  unfold update_inventory
  dsimp only
  cases hfind : get_by_product_id db pid with
  | none => exact h
  | some inv =>
    dsimp only
    refine updateFirst_preserves _ _ _ h ?_
    intro x hx hpx
    have h2 := h x hx
    simp only [invOK, adminUpd] at h2 ⊢
    omega

theorem checkout_item_sum (oid : Int) (acc : CheckoutAcc) (item : CartItem)
    (acc1 : CheckoutAcc)
    (hsum : ∀ i ∈ acc.working.inventories, invOK i)
    (h : checkout_item oid acc item = (acc1, none)) :
    ∀ i ∈ acc1.working.inventories, invOK i := by
  unfold checkout_item at h
  split at h
  · simp at h
  · dsimp only at h
    split at h
    · simp at h
    · split at h
      · simp at h
      · simp only [Prod.mk.injEq] at h
        obtain ⟨h1, _⟩ := h
        subst h1
        dsimp only
        refine updateFirst_preserves _ _ _ hsum ?_
        intro x hx hpx
        have h2 := hsum x hx
        simp only [invOK, reserveUpd] at h2 ⊢
        omega

theorem checkout_item_nonneg (oid : Int) (acc : CheckoutAcc) (item : CartItem)
    (acc1 : CheckoutAcc) (hq : 0 < item.quantity)
    (hnn : ∀ i ∈ acc.working.inventories, invNonneg i)
    (h : checkout_item oid acc item = (acc1, none)) :
    ∀ i ∈ acc1.working.inventories, invNonneg i := by
  unfold checkout_item at h
  split at h
  · simp at h
  · dsimp only at h
    split at h
    · simp at h
    · rename_i inventory hinv
      split at h
      · simp at h
      · rename_i hlt
        simp only [Prod.mk.injEq] at h
        obtain ⟨h1, _⟩ := h
        subst h1
        dsimp only
        refine updateFirst_preserves_of_find _ _ _ _ hinv hnn ?_
        have h2 := hnn _ (List.mem_of_find?_eq_some hinv)
        simp only [invNonneg, reserveUpd] at h2 ⊢
        constructor
        · omega
        · omega

theorem checkout_loop_sum (oid : Int) (items : List CartItem) :
    ∀ acc acc1, (∀ i ∈ acc.working.inventories, invOK i) →
      checkout_loop oid acc items = (acc1, none) →
      ∀ i ∈ acc1.working.inventories, invOK i := by
  induction items with
  | nil =>
    intro acc acc1 hsum h
    unfold checkout_loop at h
    simp only [Prod.mk.injEq] at h
    obtain ⟨h1, _⟩ := h
    subst h1
    exact hsum
  | cons item rest ih =>
    intro acc acc1 hsum h
    unfold checkout_loop at h
    split at h
    · simp at h
    · rename_i acc2 hitem
      exact ih acc2 acc1 (checkout_item_sum oid acc item acc2 hsum hitem) h

theorem checkout_loop_nonneg (oid : Int) (items : List CartItem) :
    ∀ acc acc1, (∀ it ∈ items, 0 < it.quantity) →
      (∀ i ∈ acc.working.inventories, invNonneg i) →
      checkout_loop oid acc items = (acc1, none) →
      ∀ i ∈ acc1.working.inventories, invNonneg i := by
  induction items with
  | nil =>
    intro acc acc1 hq hnn h
    unfold checkout_loop at h
    simp only [Prod.mk.injEq] at h
    obtain ⟨h1, _⟩ := h
    subst h1
    exact hnn
  | cons item rest ih =>
    intro acc acc1 hq hnn h
    unfold checkout_loop at h
    split at h
    · simp at h
    · rename_i acc2 hitem
      exact ih acc2 acc1 (fun it hit => hq it (List.mem_cons_of_mem _ hit))
        (checkout_item_nonneg oid acc item acc2
          (hq item (List.mem_cons_self _ _)) hnn hitem) h

theorem create_order_sumOK (db : DB) (uid : Int) (sa pm : Option String)
    (h : sumInvariant db) :
    sumInvariant ((create_order_from_cart db uid sa pm).2.1.committed) := by
  unfold create_order_from_cart
  split
  · exact h
  · dsimp only
    split
    · exact h
    · split
      · exact h
      · rename_i acc1 hloop
        intro i hi
        refine checkout_loop_sum _ _ _ acc1 ?_ hloop i hi
        exact fun j hj => h j hj

theorem create_order_nonnegOK (db : DB) (uid : Int) (sa pm : Option String)
    (h : nonnegInvariant db) :
    nonnegInvariant ((create_order_from_cart db uid sa pm).2.1.committed) := by
  unfold create_order_from_cart
  split
  · exact h
  · rename_i cart hcart
    dsimp only
    split
    · exact h
    · split
      · exact h
      · rename_i acc1 hloop
        intro i hi
        refine checkout_loop_nonneg _ _ _ acc1 ?_ (fun j hj => h j hj) hloop i hi
        intro it hit
        have := (List.mem_filter.mp hit).2
        simpa using this

instance (db : DB) : Decidable (sumInvariant db) := by
  unfold sumInvariant; infer_instance

instance (db : DB) : Decidable (nonnegInvariant db) := by
  unfold nonnegInvariant; infer_instance

/-- C4 counterexample: starting from the empty store (all invariants hold),
create inventory for product 1 with stock 5, reserve 5, then run the admin
update setting total_stock to 0.  The admin endpoint applies the whole
difference to available_stock without a floor, leaving
available_stock = -5 < 0, so non-negativity does not survive every operation
sequence (the sum invariant still holds). -/
theorem claim_inventory_invariants_cex :
    (((update_inventory (reserve_stock (create_inventory_for_product
        ⟨emptyDB, emptyDB⟩ 1 5).1 1 5).1 1 0).1.committed).inventories
      = [{ product_id := 1, total_stock := 0, available_stock := -5,
           reserved_stock := 5 }]) ∧
    sumInvariant ((update_inventory (reserve_stock (create_inventory_for_product
        ⟨emptyDB, emptyDB⟩ 1 5).1 1 5).1 1 0).1.committed) ∧
    ¬ nonnegInvariant ((update_inventory (reserve_stock (create_inventory_for_product
        ⟨emptyDB, emptyDB⟩ 1 5).1 1 5).1 1 0).1.committed) :=
  ⟨by rfl, by decide, by decide⟩

/-- C4 (amended): total_stock = available_stock + reserved_stock is
preserved by every inventory operation — create, reserve, finalize,
release/rollback, admin stock update, and checkout — while
available_stock >= 0 and reserved_stock >= 0 are preserved by create (given
non-negative initial stock), reserve (given non-negative quantity) and
checkout; they are not preserved in general by finalize/rollback without a
matching prior reservation, nor by admin updates that reduce total below the
reserved amount (see the counterexample). -/
theorem claim_inventory_invariants (db : DB) (pid stock q ts oid uid : Int)
    (sa pm : Option String) :
    (sumInvariant db →
      sumInvariant ((create_inventory_for_product ⟨db, db⟩ pid stock).1.committed)) ∧
    (nonnegInvariant db → 0 ≤ stock →
      nonnegInvariant ((create_inventory_for_product ⟨db, db⟩ pid stock).1.committed)) ∧
    (sumInvariant db → sumInvariant ((reserve_stock ⟨db, db⟩ pid q).1.committed)) ∧
    (nonnegInvariant db → 0 ≤ q →
      nonnegInvariant ((reserve_stock ⟨db, db⟩ pid q).1.committed)) ∧
    (sumInvariant db → sumInvariant ((finalize_stock ⟨db, db⟩ oid).1.committed)) ∧
    (sumInvariant db → sumInvariant ((rollback_stock ⟨db, db⟩ oid).1.committed)) ∧
    (sumInvariant db → sumInvariant ((update_inventory ⟨db, db⟩ pid ts).1.committed)) ∧
    (sumInvariant db →
      sumInvariant ((create_order_from_cart db uid sa pm).2.1.committed)) ∧
    (nonnegInvariant db →
      nonnegInvariant ((create_order_from_cart db uid sa pm).2.1.committed)) :=
  ⟨(create_inventory_invariants db pid stock).1,
   (create_inventory_invariants db pid stock).2,
   (reserve_stock_invariants db pid q).1,
   (reserve_stock_invariants db pid q).2,
   fun h => finalize_stock_sumOK db oid h,
   fun h => rollback_stock_sumOK db oid h,
   fun h => update_inventory_sumOK db pid ts h,
   fun h => create_order_sumOK db uid sa pm h,
   fun h => create_order_nonnegOK db uid sa pm h⟩

/-- Witness: on sampleDB (both invariants hold), reserving 2 of product 1,
an admin update to total 4, and a full checkout all keep the invariants. -/
theorem claim_inventory_invariants_witness :
    sumInvariant ((reserve_stock ⟨sampleDB, sampleDB⟩ 1 2).1.committed) ∧
    nonnegInvariant ((reserve_stock ⟨sampleDB, sampleDB⟩ 1 2).1.committed) ∧
    sumInvariant ((update_inventory ⟨sampleDB, sampleDB⟩ 1 4).1.committed) ∧
    sumInvariant ((create_order_from_cart sampleDB 7 none none).2.1.committed) ∧
    nonnegInvariant ((create_order_from_cart sampleDB 7 none none).2.1.committed) := by
  obtain ⟨h1, h2, h3, h4, h5, h6, h7, h8, h9⟩ :=
    claim_inventory_invariants sampleDB 1 2 2 4 1 7 none none
  exact ⟨h3 (by decide), h4 (by decide) (by decide), h7 (by decide),
    h8 (by decide), h9 (by decide)⟩
